import Mathlib

/-!
Shallow embedding of `language/libra-vm/src/libra_transaction_executor.rs`:
the transaction execution driver of the Libra VM.  Pure data (write sets,
events, statuses, outputs) is translated directly.  External collaborators
(the Move interpreter sessions, prologue/epilogue system calls, gas cost
tables, on-chain configuration and signature cryptography) live outside this
file's source; they are represented by an oracle record `Env` whose fields
give the outcome of each external call, so every theorem below is quantified
over all behaviours of the collaborators.
-/

/-- Opaque byte-addressed storage key (`AccessPath`); byte strings are
abstracted to naturals since the driver never inspects their contents. -/
abbrev AccessPath := Nat

/-- An entry of a write set: a value write or a deletion (`WriteOp`). -/
inductive WriteOp where
  | Value (v : Nat)
  | Deletion
  deriving DecidableEq, Repr

/-- Ordered finite map from access paths to write ops (`WriteSet`);
iteration order is insertion order, as in the source. -/
abbrev WriteSet := List (AccessPath × WriteOp)

/-- An emitted event; only its key takes part in the driver's logic. -/
structure ContractEvent where
  key : Nat
  data : Nat
  deriving DecidableEq, Repr

/-- A change set: a write set together with events (`ChangeSet`). -/
structure ChangeSet where
  write_set : WriteSet
  events : List ContractEvent
  deriving DecidableEq, Repr

/-- Major status codes of `VMStatus` that the driver mentions explicitly;
`other` stands for every remaining code. -/
inductive StatusCode where
  | EXECUTED
  | OUT_OF_GAS
  | ABORTED
  | EXECUTION_FAILURE
  | INVALID_SIGNATURE
  | UNREACHABLE
  | INVALID_WRITE_SET
  | STORAGE_ERROR
  | MALFORMED
  | INVALID_GAS_SPECIFIER
  | SEQUENCE_NUMBER_TOO_OLD
  | INSUFFICIENT_BALANCE
  | UNKNOWN_SCRIPT
  | INVALID_MODULE_PUBLISHER
  | other (n : Nat)
  deriving DecidableEq, Repr

/-- A structured VM status; sub-status and message are never consulted by the
driver, so only the major code is kept. -/
structure VMStatus where
  major : StatusCode
  deriving DecidableEq, Repr

/-- Embeds `VMStatus::new(code, None, None)`. -/
def VMStatus.new (c : StatusCode) : VMStatus := ⟨c⟩

/-- The status recorded in a transaction output (`TransactionStatus`). -/
inductive TransactionStatus where
  | Keep (s : VMStatus)
  | Discard (s : VMStatus)
  | Retry
  deriving DecidableEq, Repr

/-- Embeds `TransactionStatus::is_discarded`. -/
def TransactionStatus.is_discarded : TransactionStatus → Bool
  | .Discard _ => true
  | _ => false

/-- Modelled from the spec: the conversion `TransactionStatus::from(VMStatus)`
lives in libra-types, not under src/.  Spec section 7 classifies body failures
(out of gas, aborts, execution failures) as `Keep` and every validation or
system failure as `Discard`; a successfully executed status is kept.  `Retry`
is never produced. -/
def VMStatus.intoTransactionStatus (s : VMStatus) : TransactionStatus :=
  match s.major with
  | .EXECUTED => .Keep s
  | .OUT_OF_GAS => .Keep s
  | .ABORTED => .Keep s
  | .EXECUTION_FAILURE => .Keep s
  | _ => .Discard s

/-- A script payload; the driver treats the code blob as opaque. -/
structure Script where
  code : Nat
  deriving DecidableEq, Repr

/-- A module-publishing payload (`Module`); opaque to the driver. -/
structure MoveModule where
  code : Nat
  deriving DecidableEq, Repr

/-- The three user-transaction payloads (`TransactionPayload`). -/
inductive TransactionPayload where
  | Script (s : Script)
  | Module (m : MoveModule)
  | WriteSet (cs : ChangeSet)
  deriving DecidableEq, Repr

/-- A signed user transaction (`SignedTransaction`).  `signature_valid` is
modelled from the spec: signature verification is an external pure predicate
on the transaction (spec section 8, property 8), so its outcome is carried as
a field. -/
structure SignedTransaction where
  sender : Nat
  sequence_number : Nat
  payload : TransactionPayload
  max_gas_amount : Nat
  gas_currency_code : Nat
  txn_size : Nat
  signature_valid : Bool
  deriving DecidableEq, Repr

/-- Wrapper marking a transaction whose signature has been checked
(`SignatureCheckedTransaction`). -/
structure SignatureCheckedTransaction where
  txn : SignedTransaction
  deriving DecidableEq, Repr

/-- Block metadata (`BlockMetadata`).  `well_formed` is modelled from the
spec: `BlockMetadata::into_inner` deserializes the previous-vote vector in
libra-types (not under src/) and can fail; the flag records whether it
succeeds. -/
structure BlockMetadata where
  id : Nat
  round : Nat
  timestamp : Nat
  previous_votes : List Nat
  proposer : Nat
  well_formed : Bool
  deriving DecidableEq, Repr

/-- The input transaction variants (`Transaction`). -/
inductive Transaction where
  | UserTransaction (t : SignedTransaction)
  | BlockMetadata (d : BlockMetadata)
  | WaypointWriteSet (cs : ChangeSet)
  deriving DecidableEq, Repr

/-- One produced output (`TransactionOutput`). -/
structure TransactionOutput where
  write_set : WriteSet
  events : List ContractEvent
  gas_used : Nat
  status : TransactionStatus
  deriving DecidableEq, Repr

/-- Modelled from the spec: `CostStrategy` lives in move-vm-types, not under
src/.  Spec section 4.3: the meter tracks remaining gas and has explicit
metering enable/disable windows; within a disabled window charges are
skipped. -/
structure CostStrategy where
  remaining : Nat
  metering : Bool
  deriving DecidableEq, Repr

/-- Privileged construction mode (`CostStrategy::system`): metering off. -/
def CostStrategy.system (gas_left : Nat) : CostStrategy := ⟨gas_left, false⟩

/-- User-metered construction mode (`CostStrategy::transaction`): metering
on. -/
def CostStrategy.transaction (gas_left : Nat) : CostStrategy := ⟨gas_left, true⟩

/-- Embeds `CostStrategy::disable_metering`. -/
def CostStrategy.disable_metering (c : CostStrategy) : CostStrategy :=
  { c with metering := false }

/-- Embeds `CostStrategy::enable_metering`. -/
def CostStrategy.enable_metering (c : CostStrategy) : CostStrategy :=
  { c with metering := true }

/-- Modelled from the spec: a gas charge (section 4.3) fails with
`OUT_OF_GAS` when the amount exceeds the remainder (the meter is zeroed, as
the failed-charge scenario S2 requires `gas_used = max_gas`), decrements
otherwise, and is skipped while metering is disabled.  Returns the outcome
together with the updated meter, mirroring `&mut self`. -/
def CostStrategy.charge (c : CostStrategy) (amount : Nat) :
    Except VMStatus Unit × CostStrategy :=
  if c.metering then
    if amount ≤ c.remaining then
      (.ok (), { c with remaining := c.remaining - amount })
    else
      (.error (VMStatus.new .OUT_OF_GAS), { c with remaining := 0 })
  else (.ok (), c)

/-- The overlay of the `StateViewCache`: entries pushed by earlier
transactions of the batch, newest first (`data_map`).  A `some` value is a
written blob, `none` a deletion. -/
abbrev CacheMap := List (AccessPath × Option Nat)

/-- Opaque snapshot of the loaded on-chain configuration. -/
abbrev Configs := Nat

/-- The read-only backing state view: `get` yields a value, absence, or a
storage error (`Err`). -/
abbrev StateView := AccessPath → Except Unit (Option Nat)

/-- Oracle for every external collaborator called by the driver.  Each field
returns the outcome of one kind of external call as a function of the call's
visible inputs (loaded configuration, transaction, current cache overlay,
remaining gas).  The `finish` fields bundle `Session::finish` together with
`txn_effects_to_writeset_and_events_cached`: the write set and events the
session produced, or the conversion error. -/
structure Env where
  initial_configs : Configs
  load_configs : CacheMap → Configs
  get_gas_schedule : Configs → Except VMStatus Unit
  currency_recognized : Nat → Bool
  check_gas : Configs → SignedTransaction → Except VMStatus Unit
  is_allowed_script : Configs → Script → Except VMStatus Unit
  is_allowed_module : Configs → SignedTransaction → CacheMap → Except VMStatus Unit
  publishing_open : Configs → Except VMStatus Bool
  intrinsic_cost : Configs → Nat → Nat
  run_prologue : Configs → SignedTransaction → CacheMap → Except VMStatus Unit
  body_script : Configs → SignedTransaction → Script → CacheMap → Nat → Except (VMStatus × Nat) Nat
  body_module : Configs → SignedTransaction → MoveModule → Nat → CacheMap → Nat → Except (VMStatus × Nat) Nat
  run_success_epilogue : Configs → SignedTransaction → CacheMap → Except VMStatus Unit
  success_finish : Configs → SignedTransaction → CacheMap → Except VMStatus (WriteSet × List ContractEvent)
  run_failure_epilogue : Configs → SignedTransaction → CacheMap → Except VMStatus Unit
  failure_finish : Configs → SignedTransaction → CacheMap → Except VMStatus (WriteSet × List ContractEvent)
  run_writeset_prologue : SignedTransaction → CacheMap → Except VMStatus Unit
  bump_sequence_number : SignedTransaction → CacheMap → Except VMStatus Unit
  run_writeset_epilogue : SignedTransaction → CacheMap → Except VMStatus Unit
  writeset_finish : SignedTransaction → CacheMap → Except VMStatus (WriteSet × List ContractEvent)
  block_prologue_call : BlockMetadata → CacheMap → Except VMStatus Unit
  block_prologue_finish : BlockMetadata → CacheMap → Except VMStatus (WriteSet × List ContractEvent)

/-- Embeds the conversion of a write op into a cache entry value. -/
def WriteOp.as_option : WriteOp → Option Nat
  | .Value v => some v
  | .Deletion => none

/-- Embeds `StateViewCache::push_write_set`: every entry is inserted in
insertion order; a later write for the same path supersedes earlier entries
(newest entries sit at the head and `cache_get` takes the first match). -/
def push_write_set (cache : CacheMap) (ws : WriteSet) : CacheMap :=
  ws.foldl (fun m p => (p.1, p.2.as_option) :: m) cache

/-- Embeds `StateViewCache::get`: the overlay answers if it holds the path,
otherwise the backing view is consulted (which may yield a storage error). -/
def cache_get (view : StateView) (cache : CacheMap) (ap : AccessPath) :
    Except Unit (Option Nat) :=
  match cache.lookup ap with
  | some v => .ok v
  | none => view ap

/-- Embeds `discard_error_output`: a discarded transaction's output carries
no write set and no events. -/
def discard_error_output (err : VMStatus) : TransactionOutput :=
  { write_set := [], events := [], gas_used := 0, status := .Discard err }

/-- Modelled from the spec: `get_transaction_output` (libra_vm.rs, not under
src/) finalizes the session into a write set and events, charges
`max_gas - remaining` gas, and builds a `Keep` output with the given status;
a session-finalization or conversion failure is an error. -/
def get_transaction_output
    (finished : Except VMStatus (WriteSet × List ContractEvent))
    (max_gas remaining : Nat) (status : VMStatus) :
    Except VMStatus TransactionOutput :=
  match finished with
  | .error e => .error e
  | .ok (ws, ev) =>
      .ok { write_set := ws, events := ev, gas_used := max_gas - remaining,
            status := .Keep status }

/-- Embeds `LibraVM::failed_transaction_cleanup`: on a keepable status the
failure epilogue runs in a fresh session over the pre-body cache and its
effects form the `Keep` output (any failure there discards); a discardable
status discards directly.  The `Retry` arm is `unreachable!()` in the source
and is never produced by `intoTransactionStatus`. -/
def failed_transaction_cleanup (env : Env) (configs : Configs)
    (error_code : VMStatus) (gas_left : Nat) (t : SignedTransaction)
    (cache : CacheMap) : TransactionOutput :=
  match error_code.intoTransactionStatus with
  | .Keep status =>
      match env.run_failure_epilogue configs t cache with
      | .error e => discard_error_output e
      | .ok _ =>
          match get_transaction_output (env.failure_finish configs t cache)
              t.max_gas_amount gas_left status with
          | .ok out => out
          | .error e => discard_error_output e
  | .Discard status => discard_error_output status
  | .Retry => discard_error_output error_code

/-- Embeds `LibraVM::success_transaction_cleanup`: run the success epilogue,
then finalize the session into an `Executed` output. -/
def success_transaction_cleanup (env : Env) (configs : Configs)
    (t : SignedTransaction) (cache : CacheMap) (gas_left : Nat) :
    Except VMStatus TransactionOutput :=
  match env.run_success_epilogue configs t cache with
  | .error e => .error e
  | .ok _ =>
      get_transaction_output (env.success_finish configs t cache)
        t.max_gas_amount gas_left (VMStatus.new .EXECUTED)

/-- Embeds `LibraVM::execute_script`.  Validation (gas check, script policy,
prologue) runs with metering disabled; then metering is enabled, the
intrinsic gas is charged, the body runs, and the success path finishes in
`success_transaction_cleanup`.  An error carries the remaining gas of the
shared `&mut CostStrategy` at the failure point. -/
def execute_script (env : Env) (configs : Configs) (cache : CacheMap)
    (cost0 : CostStrategy) (t : SignedTransaction) (s : Script) :
    Except (VMStatus × Nat) TransactionOutput :=
  match env.get_gas_schedule configs with
  | .error e => .error (e, cost0.remaining)
  | .ok _ =>
    let cost1 := cost0.disable_metering
    match env.check_gas configs t with
    | .error e => .error (e, cost1.remaining)
    | .ok _ =>
      match env.is_allowed_script configs s with
      | .error e => .error (e, cost1.remaining)
      | .ok _ =>
        match env.run_prologue configs t cache with
        | .error e => .error (e, cost1.remaining)
        | .ok _ =>
          let cost2 := cost1.enable_metering
          match cost2.charge (env.intrinsic_cost configs t.txn_size) with
          | (.error e, cost3) => .error (e, cost3.remaining)
          | (.ok _, cost3) =>
            match env.body_script configs t s cache cost3.remaining with
            | .error er => .error er
            | .ok rem =>
              match success_transaction_cleanup env configs t cache rem with
              | .error e => .error (e, rem)
              | .ok out => .ok out

/-- Reserved core code address (`account_config::CORE_CODE_ADDRESS`). -/
def CORE_CODE_ADDRESS : Nat := 1

/-- Reserved VM sender address (`account_config::reserved_vm_address`). -/
def reserved_vm_address : Nat := 0

/-- Embeds `LibraVM::execute_module`: like the script flow, but with the
module policy check and the publishing target address (sender when
publishing is open, the core code address otherwise). -/
def execute_module (env : Env) (configs : Configs) (cache : CacheMap)
    (cost0 : CostStrategy) (t : SignedTransaction) (m : MoveModule) :
    Except (VMStatus × Nat) TransactionOutput :=
  match env.get_gas_schedule configs with
  | .error e => .error (e, cost0.remaining)
  | .ok _ =>
    let cost1 := cost0.disable_metering
    match env.check_gas configs t with
    | .error e => .error (e, cost1.remaining)
    | .ok _ =>
      match env.is_allowed_module configs t cache with
      | .error e => .error (e, cost1.remaining)
      | .ok _ =>
        match env.run_prologue configs t cache with
        | .error e => .error (e, cost1.remaining)
        | .ok _ =>
          match env.publishing_open configs with
          | .error e => .error (e, cost1.remaining)
          | .ok is_open =>
            let module_address := if is_open then t.sender else CORE_CODE_ADDRESS
            let cost2 := cost1.enable_metering
            match cost2.charge (env.intrinsic_cost configs t.txn_size) with
            | (.error e, cost3) => .error (e, cost3.remaining)
            | (.ok _, cost3) =>
              match env.body_module configs t m module_address cache cost3.remaining with
              | .error er => .error er
              | .ok rem =>
                match success_transaction_cleanup env configs t cache rem with
                | .error e => .error (e, rem)
                | .ok out => .ok out

/-- Embeds the `match result` at the end of `execute_user_transaction`: a
successful flow returns its output; an error is discarded when its status
converts to `Discard`, and otherwise goes through
`failed_transaction_cleanup` with the gas remaining at the failure point. -/
def user_result (env : Env) (configs : Configs) (cache : CacheMap)
    (t : SignedTransaction) :
    Except (VMStatus × Nat) TransactionOutput → TransactionOutput
  | .ok output => output
  | .error (err, remaining) =>
      if err.intoTransactionStatus.is_discarded then discard_error_output err
      else failed_transaction_cleanup env configs err remaining t cache

/-- Embeds `LibraVM::execute_user_transaction`: fetch the gas schedule,
build the system cost strategy over `max_gas_amount`, resolve the gas
currency, and dispatch on the payload; a `WriteSet` payload is discarded
with `UNREACHABLE` (the partitioner never routes one here). -/
def execute_user_transaction (env : Env) (configs : Configs)
    (cache : CacheMap) (txn : SignatureCheckedTransaction) :
    TransactionOutput :=
  let t := txn.txn
  match env.get_gas_schedule configs with
  | .error e => discard_error_output e
  | .ok _ =>
    let cost0 := CostStrategy.system t.max_gas_amount
    if env.currency_recognized t.gas_currency_code then
      match t.payload with
      | .Script s =>
          user_result env configs cache t (execute_script env configs cache cost0 t s)
      | .Module m =>
          user_result env configs cache t (execute_module env configs cache cost0 t m)
      | .WriteSet _ => discard_error_output (VMStatus.new .UNREACHABLE)
    else discard_error_output (VMStatus.new .INVALID_GAS_SPECIFIER)

/-- Embeds `SignedTransaction::check_signature` as mapped in
`execute_user_transactions`: an invalid signature becomes the
`INVALID_SIGNATURE` status. -/
def check_signature (t : SignedTransaction) :
    Except VMStatus SignatureCheckedTransaction :=
  if t.signature_valid then .ok ⟨t⟩
  else .error (VMStatus.new .INVALID_SIGNATURE)

/-- The output of one iteration of the serial loop in
`execute_user_transactions`: execute a signature-checked transaction, or
discard a signature failure. -/
def user_txn_output (env : Env) (configs : Configs) (cache : CacheMap) :
    Except VMStatus SignatureCheckedTransaction → TransactionOutput
  | .ok t => execute_user_transaction env configs cache t
  | .error e => discard_error_output e

/-- The cache update of one iteration of the serial loop: a write set is
pushed exactly when the output is not discarded. -/
def next_cache (cache : CacheMap) (output : TransactionOutput) : CacheMap :=
  if output.status.is_discarded then cache
  else push_write_set cache output.write_set

/-- Embeds the serial execution loop of `execute_user_transactions`: one
output per entry, threading the cache through `next_cache`. -/
def user_loop (env : Env) (configs : Configs) :
    List (Except VMStatus SignatureCheckedTransaction) → CacheMap →
    List TransactionOutput × CacheMap
  | [], cache => ([], cache)
  | txn :: rest, cache =>
      (user_txn_output env configs cache txn ::
        (user_loop env configs rest
          (next_cache cache (user_txn_output env configs cache txn))).1,
       (user_loop env configs rest
          (next_cache cache (user_txn_output env configs cache txn))).2)

/-- The driver's mutable state across blocks: the staging-cache overlay and
the loaded on-chain configuration of `LibraVMImpl`. -/
structure ExecState where
  cache : CacheMap
  configs : Configs
  deriving DecidableEq, Repr

/-- Embeds `LibraVM::execute_user_transactions`: reload the configs from the
cache, verify every signature (a pure parallel map), then run the serial
loop.  The function never returns an error. -/
def execute_user_transactions (env : Env) (txn_block : List SignedTransaction)
    (st : ExecState) :
    Except VMStatus (List TransactionOutput × ExecState) :=
  let configs := env.load_configs st.cache
  let signature_verified_block := txn_block.map check_signature
  .ok ((user_loop env configs signature_verified_block st.cache).1,
       { cache := (user_loop env configs signature_verified_block st.cache).2,
         configs := configs })

/-- Embeds `LibraVM::read_writeset`: read each access path the write set
will update through the cache; a failing read is a `STORAGE_ERROR`. -/
def read_writeset (view : StateView) (cache : CacheMap) :
    WriteSet → Except VMStatus Unit
  | [] => .ok ()
  | p :: rest =>
      match cache_get view cache p.1 with
      | .error _ => .error (VMStatus.new .STORAGE_ERROR)
      | .ok _ => read_writeset view cache rest

/-- Embeds `LibraVM::process_waypoint_change_set`: read every path the
change set writes, push the write set, reload the configs, and emit an
`Executed` output carrying exactly the change set. -/
def process_waypoint_change_set (env : Env) (view : StateView)
    (st : ExecState) (change_set : ChangeSet) :
    Except VMStatus (TransactionOutput × ExecState) :=
  match read_writeset view st.cache change_set.write_set with
  | .error e => .error e
  | .ok _ =>
      .ok ({ write_set := change_set.write_set, events := change_set.events,
             gas_used := 0,
             status := (VMStatus.new .EXECUTED).intoTransactionStatus },
           { cache := push_write_set st.cache change_set.write_set,
             configs := env.load_configs
               (push_write_set st.cache change_set.write_set) })

/-- Largest `u64`, used for the synthesized block-prologue gas budget. -/
def U64_MAX : Nat := 2 ^ 64 - 1

/-- Embeds `LibraVM::process_block_prologue`: synthesized metadata (reserved
VM sender, `u64::MAX` gas) with a metered zero-cost strategy, intrinsic gas
charged (cost 0 under the zero-cost schedule), the block-prologue function
invoked, and the resulting write set pushed onto the cache.  Every failure
is a batch-level error. -/
def process_block_prologue (env : Env) (st : ExecState)
    (block_metadata : BlockMetadata) :
    Except VMStatus (TransactionOutput × ExecState) :=
  let max_gas := U64_MAX
  let cost0 := CostStrategy.transaction max_gas
  match cost0.charge 0 with
  | (.error e, _) => .error e
  | (.ok _, cost1) =>
      if block_metadata.well_formed then
        match env.block_prologue_call block_metadata st.cache with
        | .error e => .error e
        | .ok _ =>
            match get_transaction_output
                (env.block_prologue_finish block_metadata st.cache)
                max_gas cost1.remaining (VMStatus.new .EXECUTED) with
            | .error e => .error e
            | .ok output =>
                .ok (output,
                     { st with cache := push_write_set st.cache output.write_set })
      else .error (VMStatus.new .MALFORMED)

/-- Access paths of a write set. -/
def ws_keys (ws : WriteSet) : List AccessPath := ws.map Prod.fst

/-- Keys of an event list. -/
def event_keys (evs : List ContractEvent) : List Nat :=
  evs.map ContractEvent.key

/-- Embeds the `HashSet::is_disjoint` check on write-set access paths. -/
def ap_disjoint (ws1 ws2 : WriteSet) : Bool :=
  (ws_keys ws1).all (fun a => !((ws_keys ws2).contains a))

/-- Embeds the `HashSet::is_disjoint` check on event keys. -/
def events_disjoint (e1 e2 : List ContractEvent) : Bool :=
  (event_keys e1).all (fun k => !((event_keys e2).contains k))

/-- Embeds `LibraVM::process_writeset_transaction`.  Signature failure,
payload mismatch, writeset-prologue failure, storage-read failure and the
overlap checks all discard; failures of the sequence-number bump, of the
writeset epilogue and of session finalization propagate as batch-level
errors (the source applies `?` to them).  `WriteSetMut::freeze` is modelled
from the spec as the identity on the concatenated list (spec section 4.9:
the output write set is the concatenation). -/
def process_writeset_transaction (env : Env) (view : StateView)
    (cache : CacheMap) (txn : SignedTransaction) :
    Except VMStatus TransactionOutput :=
  if txn.signature_valid then
    match txn.payload with
    | .WriteSet change_set =>
        match env.run_writeset_prologue txn cache with
        | .error e => .ok (discard_error_output e)
        | .ok _ =>
            match env.bump_sequence_number txn cache with
            | .error e => .error e
            | .ok _ =>
                match env.run_writeset_epilogue txn cache with
                | .error e => .error e
                | .ok _ =>
                    match read_writeset view cache change_set.write_set with
                    | .error e => .ok (discard_error_output e)
                    | .ok _ =>
                        match env.writeset_finish txn cache with
                        | .error e => .error e
                        | .ok (epilogue_writeset, epilogue_events) =>
                            if !(ap_disjoint epilogue_writeset change_set.write_set) then
                              .ok (discard_error_output (VMStatus.new .INVALID_WRITE_SET))
                            else if !(events_disjoint epilogue_events change_set.events) then
                              .ok (discard_error_output (VMStatus.new .INVALID_WRITE_SET))
                            else
                              .ok { write_set := epilogue_writeset ++ change_set.write_set,
                                    events := change_set.events ++ epilogue_events,
                                    gas_used := 0,
                                    status := .Keep (VMStatus.new .EXECUTED) }
    | _ => .ok (discard_error_output (VMStatus.new .UNREACHABLE))
  else .ok (discard_error_output (VMStatus.new .INVALID_SIGNATURE))

/-- Transactions divided by transaction flow (`TransactionBlock`). -/
inductive TransactionBlock where
  | UserTransaction (txns : List SignedTransaction)
  | WaypointWriteSet (cs : ChangeSet)
  | BlockPrologue (d : BlockMetadata)
  | WriteSet (txn : SignedTransaction)
  deriving DecidableEq, Repr

/-- Whether a user transaction carries a `WriteSet` payload. -/
def is_writeset_payload (t : SignedTransaction) : Bool :=
  match t.payload with
  | .WriteSet _ => true
  | _ => false

/-- The loop of `chunk_block_transactions` with its pending user buffer
`buf`: metadata, waypoint and write-set-payload transactions flush the
buffer and emit their own singleton block; other user transactions
accumulate; a non-empty buffer is flushed at end of input. -/
def chunkAux : List SignedTransaction → List Transaction → List TransactionBlock
  | buf, [] => if buf.isEmpty then [] else [TransactionBlock.UserTransaction buf]
  | buf, Transaction.BlockMetadata d :: rest =>
      (if buf.isEmpty then [] else [TransactionBlock.UserTransaction buf]) ++
        (TransactionBlock.BlockPrologue d :: chunkAux [] rest)
  | buf, Transaction.WaypointWriteSet cs :: rest =>
      (if buf.isEmpty then [] else [TransactionBlock.UserTransaction buf]) ++
        (TransactionBlock.WaypointWriteSet cs :: chunkAux [] rest)
  | buf, Transaction.UserTransaction t :: rest =>
      if is_writeset_payload t then
        (if buf.isEmpty then [] else [TransactionBlock.UserTransaction buf]) ++
          (TransactionBlock.WriteSet t :: chunkAux [] rest)
      else chunkAux (buf ++ [t]) rest

/-- Embeds `chunk_block_transactions`: partition the input into
flow-classified runs, starting from an empty buffer. -/
def chunk_block_transactions (txns : List Transaction) : List TransactionBlock :=
  chunkAux [] txns

/-- Embeds the block dispatch loop of `execute_block_impl`.  User runs and
block prologues thread the state; a waypoint failure is converted into a
discard output (`unwrap_or_else(discard_error_output)`) without touching the
state; write-set transactions do not push their write set (the source never
applies it), and their errors propagate. -/
def run_blocks (env : Env) (view : StateView) :
    List TransactionBlock → ExecState →
    Except VMStatus (List TransactionOutput × ExecState)
  | [], st => .ok ([], st)
  | TransactionBlock.UserTransaction txns :: rest, st =>
      match execute_user_transactions env txns st with
      | .error e => .error e
      | .ok (outs, st') =>
          match run_blocks env view rest st' with
          | .error e => .error e
          | .ok (more, stf) => .ok (outs ++ more, stf)
  | TransactionBlock.BlockPrologue d :: rest, st =>
      match process_block_prologue env st d with
      | .error e => .error e
      | .ok (out, st') =>
          match run_blocks env view rest st' with
          | .error e => .error e
          | .ok (more, stf) => .ok (out :: more, stf)
  | TransactionBlock.WaypointWriteSet cs :: rest, st =>
      match process_waypoint_change_set env view st cs with
      | .ok (out, st') =>
          match run_blocks env view rest st' with
          | .error e => .error e
          | .ok (more, stf) => .ok (out :: more, stf)
      | .error e =>
          match run_blocks env view rest st with
          | .error e2 => .error e2
          | .ok (more, stf) => .ok (discard_error_output e :: more, stf)
  | TransactionBlock.WriteSet txn :: rest, st =>
      match process_writeset_transaction env view st.cache txn with
      | .error e => .error e
      | .ok out =>
          match run_blocks env view rest st with
          | .error e => .error e
          | .ok (more, stf) => .ok (out :: more, stf)

/-- Embeds `LibraVM::execute_block_impl`: chunk the input, run the blocks
over a fresh cache, and collate the outputs. -/
def execute_block_impl (env : Env) (transactions : List Transaction)
    (view : StateView) : Except VMStatus (List TransactionOutput) :=
  match run_blocks env view (chunk_block_transactions transactions)
      { cache := [], configs := env.initial_configs } with
  | .error e => .error e
  | .ok (result, _) => .ok result

/-- Embeds `VMExecutor::execute_block` for `LibraVM`: a fresh VM runs the
batch. -/
def execute_block (env : Env) (transactions : List Transaction)
    (view : StateView) : Except VMStatus (List TransactionOutput) :=
  execute_block_impl env transactions view

/-! ## Concrete instances used by the witnesses -/

/-- A trivial backing view: every path reads as absent. -/
def view0 : StateView := fun _ => Except.ok none

/-- A concrete oracle in which every external call succeeds and every
session produces empty effects. -/
def env0 : Env where
  initial_configs := 0
  load_configs := fun _ => 0
  get_gas_schedule := fun _ => .ok ()
  currency_recognized := fun _ => true
  check_gas := fun _ _ => .ok ()
  is_allowed_script := fun _ _ => .ok ()
  is_allowed_module := fun _ _ _ => .ok ()
  publishing_open := fun _ => .ok true
  intrinsic_cost := fun _ _ => 0
  run_prologue := fun _ _ _ => .ok ()
  body_script := fun _ _ _ _ rem => .ok rem
  body_module := fun _ _ _ _ _ rem => .ok rem
  run_success_epilogue := fun _ _ _ => .ok ()
  success_finish := fun _ _ _ => .ok ([], [])
  run_failure_epilogue := fun _ _ _ => .ok ()
  failure_finish := fun _ _ _ => .ok ([], [])
  run_writeset_prologue := fun _ _ => .ok ()
  bump_sequence_number := fun _ _ => .ok ()
  run_writeset_epilogue := fun _ _ => .ok ()
  writeset_finish := fun _ _ => .ok ([], [])
  block_prologue_call := fun _ _ => .ok ()
  block_prologue_finish := fun _ _ => .ok ([], [])

/-- A concrete change set writing one key. -/
def cs0 : ChangeSet := { write_set := [(0, WriteOp.Value 7)], events := [] }

/-- A concrete script-payload user transaction with a valid signature. -/
def scriptTxn0 : SignedTransaction :=
  { sender := 2, sequence_number := 0, payload := .Script ⟨0⟩,
    max_gas_amount := 100, gas_currency_code := 0, txn_size := 10,
    signature_valid := true }

/-- A concrete write-set-payload user transaction with a valid signature. -/
def wsTxn0 : SignedTransaction :=
  { sender := 3, sequence_number := 0, payload := .WriteSet cs0,
    max_gas_amount := 100, gas_currency_code := 0, txn_size := 10,
    signature_valid := true }

/-- A script transaction whose signature verification fails. -/
def badSigTxn0 : SignedTransaction :=
  { scriptTxn0 with sender := 4, signature_valid := false }

/-- Well-formed block metadata. -/
def bm0 : BlockMetadata :=
  { id := 9, round := 1, timestamp := 5, previous_votes := [], proposer := 2,
    well_formed := true }

/-- Oracle in which the writeset epilogue of every write-set transaction
aborts. -/
def envWsEpilogueFail : Env :=
  { env0 with run_writeset_epilogue := fun _ _ => .error (VMStatus.new .ABORTED) }

/-- Oracle in which the writeset-transaction epilogue session writes the
same key `0` that `cs0` writes (an overlap). -/
def envOverlap : Env :=
  { env0 with writeset_finish := fun _ _ => .ok ([(0, WriteOp.Value 5)], []) }

/-- Oracle in which the user prologue fails with an old sequence number. -/
def envPrologueFail : Env :=
  { env0 with run_prologue := fun _ _ _ => .error (VMStatus.new .SEQUENCE_NUMBER_TOO_OLD) }

/-- The mixed batch of spec scenario S6. -/
def ts6 : List Transaction :=
  [Transaction.UserTransaction scriptTxn0,
   Transaction.UserTransaction badSigTxn0,
   Transaction.BlockMetadata bm0,
   Transaction.UserTransaction scriptTxn0,
   Transaction.WaypointWriteSet cs0,
   Transaction.UserTransaction scriptTxn0]

/-! ## The partitioner (claim C4) -/

/-- The input transactions a block stands for. -/
def block_txns : TransactionBlock → List Transaction
  | .UserTransaction l => l.map Transaction.UserTransaction
  | .WaypointWriteSet cs => [Transaction.WaypointWriteSet cs]
  | .BlockPrologue d => [Transaction.BlockMetadata d]
  | .WriteSet t => [Transaction.UserTransaction t]

/-- Concatenation of the blocks back into a transaction sequence. -/
def blocks_flatten (bs : List TransactionBlock) : List Transaction :=
  (bs.map block_txns).flatten

/-- A `UserTransaction` block is non-empty and groups only
non-write-set user transactions; other blocks are unconstrained. -/
def user_block_ok : TransactionBlock → Prop
  | .UserTransaction l => l ≠ [] ∧ ∀ t ∈ l, is_writeset_payload t = false
  | _ => True

/-- Discriminates `UserTransaction` blocks. -/
def is_user_block : TransactionBlock → Bool
  | .UserTransaction _ => true
  | _ => false

/-- No two consecutive blocks are both `UserTransaction` runs: consecutive
non-write-set user transactions are grouped into a single run. -/
def no_adjacent_user_blocks : List TransactionBlock → Prop
  | [] => True
  | [_] => True
  | a :: b :: rest =>
      ¬(is_user_block a = true ∧ is_user_block b = true) ∧
        no_adjacent_user_blocks (b :: rest)

lemma chunkAux_flatten (ts : List Transaction) : ∀ buf : List SignedTransaction,
    blocks_flatten (chunkAux buf ts) = buf.map Transaction.UserTransaction ++ ts := by
  induction ts with
  | nil =>
      intro buf
      cases buf with
      | nil => simp [chunkAux, blocks_flatten]
      | cons x xs => simp [chunkAux, blocks_flatten, block_txns]
  | cons t rest ih =>
      intro buf
      cases t with
      | BlockMetadata d =>
          cases buf with
          | nil => simp [chunkAux, blocks_flatten, block_txns] at ih ⊢; simp [ih]
          | cons x xs => simp [chunkAux, blocks_flatten, block_txns] at ih ⊢; simp [ih]
      | WaypointWriteSet cs =>
          cases buf with
          | nil => simp [chunkAux, blocks_flatten, block_txns] at ih ⊢; simp [ih]
          | cons x xs => simp [chunkAux, blocks_flatten, block_txns] at ih ⊢; simp [ih]
      | UserTransaction u =>
          by_cases hws : is_writeset_payload u
          · cases buf with
            | nil => simp [chunkAux, hws, blocks_flatten, block_txns] at ih ⊢; simp [ih]
            | cons x xs => simp [chunkAux, hws, blocks_flatten, block_txns] at ih ⊢; simp [ih]
          · have := ih (buf ++ [u])
            simp [chunkAux, hws, blocks_flatten] at this ⊢
            simp [this]

lemma chunkAux_user_ok (ts : List Transaction) : ∀ buf : List SignedTransaction,
    (∀ t ∈ buf, is_writeset_payload t = false) →
    ∀ b ∈ chunkAux buf ts, user_block_ok b := by
  induction ts with
  | nil =>
      intro buf hbuf b hb
      cases buf with
      | nil => simp [chunkAux] at hb
      | cons x xs =>
          simp [chunkAux] at hb
          subst hb
          exact ⟨by simp, hbuf⟩
  | cons t rest ih =>
      intro buf hbuf b hb
      cases t with
      | BlockMetadata d =>
          cases buf with
          | nil =>
              simp [chunkAux] at hb
              rcases hb with hb | hb
              · subst hb; trivial
              · exact ih [] (by simp) b hb
          | cons x xs =>
              simp [chunkAux] at hb
              rcases hb with hb | hb | hb
              · subst hb; exact ⟨by simp, hbuf⟩
              · subst hb; trivial
              · exact ih [] (by simp) b hb
      | WaypointWriteSet cs =>
          cases buf with
          | nil =>
              simp [chunkAux] at hb
              rcases hb with hb | hb
              · subst hb; trivial
              · exact ih [] (by simp) b hb
          | cons x xs =>
              simp [chunkAux] at hb
              rcases hb with hb | hb | hb
              · subst hb; exact ⟨by simp, hbuf⟩
              · subst hb; trivial
              · exact ih [] (by simp) b hb
      | UserTransaction u =>
          by_cases hws : is_writeset_payload u
          · cases buf with
            | nil =>
                simp [chunkAux, hws] at hb
                rcases hb with hb | hb
                · subst hb; trivial
                · exact ih [] (by simp) b hb
            | cons x xs =>
                simp [chunkAux, hws] at hb
                rcases hb with hb | hb | hb
                · subst hb; exact ⟨by simp, hbuf⟩
                · subst hb; trivial
                · exact ih [] (by simp) b hb
          · refine ih (buf ++ [u]) ?_ b (by simpa [chunkAux, hws] using hb)
            intro x hx
            rcases List.mem_append.mp hx with hx | hx
            · exact hbuf x hx
            · simp at hx; subst hx; simpa using hws

lemma no_adjacent_cons (x : TransactionBlock) (l : List TransactionBlock)
    (hx : is_user_block x = false) (hl : no_adjacent_user_blocks l) :
    no_adjacent_user_blocks (x :: l) := by
  cases l with
  | nil => trivial
  | cons b rest =>
      refine ⟨?_, hl⟩
      rintro ⟨h1, _⟩
      rw [hx] at h1
      cases h1

lemma chunkAux_no_adjacent (ts : List Transaction) :
    ∀ buf : List SignedTransaction, no_adjacent_user_blocks (chunkAux buf ts) := by
  induction ts with
  | nil =>
      intro buf
      cases buf with
      | nil => simp [chunkAux]; trivial
      | cons x xs => simp [chunkAux]; trivial
  | cons t rest ih =>
      intro buf
      cases t with
      | BlockMetadata d =>
          have h1 : no_adjacent_user_blocks
              (TransactionBlock.BlockPrologue d :: chunkAux [] rest) :=
            no_adjacent_cons (TransactionBlock.BlockPrologue d) _ rfl (ih [])
          cases buf with
          | nil => simpa [chunkAux] using h1
          | cons x xs =>
              simp [chunkAux]
              refine ⟨?_, h1⟩
              rintro ⟨_, h⟩
              cases h
      | WaypointWriteSet cs =>
          have h1 : no_adjacent_user_blocks
              (TransactionBlock.WaypointWriteSet cs :: chunkAux [] rest) :=
            no_adjacent_cons (TransactionBlock.WaypointWriteSet cs) _ rfl (ih [])
          cases buf with
          | nil => simpa [chunkAux] using h1
          | cons x xs =>
              simp [chunkAux]
              refine ⟨?_, h1⟩
              rintro ⟨_, h⟩
              cases h
      | UserTransaction u =>
          by_cases hws : is_writeset_payload u
          · have h1 : no_adjacent_user_blocks
                (TransactionBlock.WriteSet u :: chunkAux [] rest) :=
              no_adjacent_cons (TransactionBlock.WriteSet u) _ rfl (ih [])
            cases buf with
            | nil => simpa [chunkAux, hws] using h1
            | cons x xs =>
                simp [chunkAux, hws]
                refine ⟨?_, h1⟩
                rintro ⟨_, h⟩
                cases h
          · simpa [chunkAux, hws] using ih (buf ++ [u])

/-- C4: the batch partitioner `chunk_block_transactions` is order-preserving
(concatenating its output blocks reproduces the input sequence), every
`UserTransaction` block is a non-empty run of non-write-set user
transactions (metadata, waypoint and write-set transactions are singleton
blocks of their own kinds, flushing any pending buffer), and no two
consecutive blocks are user runs (consecutive non-write-set user
transactions form a single block; a non-empty buffer at end of input is
flushed). -/
theorem chunk_block_transactions_correct (ts : List Transaction) :
    blocks_flatten (chunk_block_transactions ts) = ts
  ∧ (∀ b ∈ chunk_block_transactions ts, user_block_ok b)
  ∧ no_adjacent_user_blocks (chunk_block_transactions ts) := by
  refine ⟨?_, ?_, ?_⟩
  · simpa using chunkAux_flatten ts []
  · exact chunkAux_user_ok ts [] (by simp)
  · exact chunkAux_no_adjacent ts []

/-- Witness for C4 on the mixed batch of scenario S6: the partition is the
expected block structure and its flattening reproduces the input. -/
theorem chunk_block_transactions_correct_witness :
    blocks_flatten (chunk_block_transactions ts6) = ts6
  ∧ user_block_ok (TransactionBlock.UserTransaction [scriptTxn0, badSigTxn0]) :=
  ⟨(chunk_block_transactions_correct ts6).1,
   (chunk_block_transactions_correct ts6).2.1 _ (by decide)⟩

/-! ## Output-vector length (claim C1) -/

/-- Number of input transactions a block stands for. -/
def blockLen : TransactionBlock → Nat
  | .UserTransaction l => l.length
  | _ => 1

lemma user_loop_length (env : Env) (configs : Configs)
    (l : List (Except VMStatus SignatureCheckedTransaction)) :
    ∀ cache, (user_loop env configs l cache).1.length = l.length := by
  induction l with
  | nil => intro cache; simp [user_loop]
  | cons t rest ih => intro cache; simp [user_loop, ih]

lemma execute_user_transactions_length (env : Env)
    (txns : List SignedTransaction) (st : ExecState)
    (outs : List TransactionOutput) (st' : ExecState)
    (h : execute_user_transactions env txns st = .ok (outs, st')) :
    outs.length = txns.length := by
  simp only [execute_user_transactions, Except.ok.injEq, Prod.mk.injEq] at h
  rw [← h.1, user_loop_length, List.length_map]

lemma chunkAux_len (ts : List Transaction) : ∀ buf : List SignedTransaction,
    ((chunkAux buf ts).map blockLen).sum = buf.length + ts.length := by
  induction ts with
  | nil =>
      intro buf
      cases buf with
      | nil => simp [chunkAux]
      | cons x xs => simp [chunkAux, blockLen]
  | cons t rest ih =>
      intro buf
      cases t with
      | BlockMetadata d =>
          cases buf with
          | nil => simp [chunkAux, blockLen, ih []]; omega
          | cons x xs => simp [chunkAux, blockLen, ih []]; omega
      | WaypointWriteSet cs =>
          cases buf with
          | nil => simp [chunkAux, blockLen, ih []]; omega
          | cons x xs => simp [chunkAux, blockLen, ih []]; omega
      | UserTransaction u =>
          by_cases hws : is_writeset_payload u
          · cases buf with
            | nil => simp [chunkAux, hws, blockLen, ih []]; omega
            | cons x xs => simp [chunkAux, hws, blockLen, ih []]; omega
          · have := ih (buf ++ [u])
            simp [chunkAux, hws] at this ⊢
            simp [this]
            omega

lemma run_blocks_length (env : Env) (view : StateView)
    (bs : List TransactionBlock) :
    ∀ st outs stf, run_blocks env view bs st = .ok (outs, stf) →
      outs.length = (bs.map blockLen).sum := by
  induction bs with
  | nil =>
      intro st outs stf h
      simp only [run_blocks, Except.ok.injEq, Prod.mk.injEq] at h
      simp [← h.1]
  | cons b rest ih =>
      intro st outs stf h
      cases b with
      | UserTransaction txns =>
          cases hu : execute_user_transactions env txns st with
          | error e => simp [run_blocks, hu] at h
          | ok p =>
              obtain ⟨us, st'⟩ := p
              cases hr : run_blocks env view rest st' with
              | error e => simp [run_blocks, hu, hr] at h
              | ok q =>
                  obtain ⟨more, stf'⟩ := q
                  simp only [run_blocks, hu, hr, Except.ok.injEq, Prod.mk.injEq] at h
                  rw [← h.1]
                  simp [blockLen, execute_user_transactions_length env txns st us st' hu,
                        ih st' more stf' hr]
      | BlockPrologue d =>
          cases hu : process_block_prologue env st d with
          | error e => simp [run_blocks, hu] at h
          | ok p =>
              obtain ⟨out, st'⟩ := p
              cases hr : run_blocks env view rest st' with
              | error e => simp [run_blocks, hu, hr] at h
              | ok q =>
                  obtain ⟨more, stf'⟩ := q
                  simp only [run_blocks, hu, hr, Except.ok.injEq, Prod.mk.injEq] at h
                  rw [← h.1]
                  simp [blockLen, ih st' more stf' hr]
                  omega
      | WaypointWriteSet cs =>
          cases hu : process_waypoint_change_set env view st cs with
          | ok p =>
              obtain ⟨out, st'⟩ := p
              cases hr : run_blocks env view rest st' with
              | error e => simp [run_blocks, hu, hr] at h
              | ok q =>
                  obtain ⟨more, stf'⟩ := q
                  simp only [run_blocks, hu, hr, Except.ok.injEq, Prod.mk.injEq] at h
                  rw [← h.1]
                  simp [blockLen, ih st' more stf' hr]
                  omega
          | error e =>
              cases hr : run_blocks env view rest st with
              | error e2 => simp [run_blocks, hu, hr] at h
              | ok q =>
                  obtain ⟨more, stf'⟩ := q
                  simp only [run_blocks, hu, hr, Except.ok.injEq, Prod.mk.injEq] at h
                  rw [← h.1]
                  simp [blockLen, ih st more stf' hr]
                  omega
      | WriteSet txn =>
          cases hu : process_writeset_transaction env view st.cache txn with
          | error e => simp [run_blocks, hu] at h
          | ok out =>
              cases hr : run_blocks env view rest st with
              | error e => simp [run_blocks, hu, hr] at h
              | ok q =>
                  obtain ⟨more, stf'⟩ := q
                  simp only [run_blocks, hu, hr, Except.ok.injEq, Prod.mk.injEq] at h
                  rw [← h.1]
                  simp [blockLen, ih st more stf' hr]
                  omega

/-- C1: whenever `execute_block` returns success, the output vector has
exactly the length of the input transaction list (an empty input yields an
empty output). -/
theorem execute_block_output_length (env : Env) (ts : List Transaction)
    (view : StateView) (outs : List TransactionOutput)
    (h : execute_block env ts view = .ok outs) :
    outs.length = ts.length := by
  rw [execute_block, execute_block_impl] at h
  cases hr : run_blocks env view (chunk_block_transactions ts)
      { cache := [], configs := env.initial_configs } with
  | error e => rw [hr] at h; cases h
  | ok p =>
      obtain ⟨result, stf⟩ := p
      rw [hr] at h
      simp only [Except.ok.injEq] at h
      rw [← h]
      rw [run_blocks_length env view (chunk_block_transactions ts) _ result stf hr]
      simpa [chunk_block_transactions] using chunkAux_len ts []

/-- Witness for C1: a one-transaction batch under the trivial oracle
produces exactly one output. -/
theorem execute_block_output_length_witness :
    ([{ write_set := [], events := [], gas_used := 0,
        status := TransactionStatus.Keep (VMStatus.new StatusCode.EXECUTED) }] :
      List TransactionOutput).length =
      [Transaction.UserTransaction scriptTxn0].length :=
  execute_block_output_length env0 [Transaction.UserTransaction scriptTxn0]
    view0 _ (by rfl)

/-! ## Discarded outputs are empty; no `Retry` (claims C3 and C8) -/

/-- Every output the driver produces satisfies this: a discarded output is
empty, and the `Retry` status never appears. -/
def GoodOut (o : TransactionOutput) : Prop :=
  (o.status.is_discarded = true → o.write_set = [] ∧ o.events = []) ∧
    o.status ≠ TransactionStatus.Retry

lemma discard_error_output_good (e : VMStatus) :
    GoodOut (discard_error_output e) := by
  refine ⟨fun _ => ⟨rfl, rfl⟩, ?_⟩
  simp [discard_error_output]

lemma keep_good (o : TransactionOutput) (s : VMStatus)
    (h : o.status = TransactionStatus.Keep s) : GoodOut o := by
  refine ⟨fun hd => ?_, ?_⟩
  · rw [h] at hd; simp [TransactionStatus.is_discarded] at hd
  · rw [h]; simp

lemma get_transaction_output_status
    (fr : Except VMStatus (WriteSet × List ContractEvent))
    (mg rem : Nat) (st : VMStatus) (out : TransactionOutput)
    (h : get_transaction_output fr mg rem st = .ok out) :
    out.status = TransactionStatus.Keep st := by
  cases fr with
  | error e => simp [get_transaction_output] at h
  | ok p =>
      obtain ⟨ws, ev⟩ := p
      simp only [get_transaction_output, Except.ok.injEq] at h
      rw [← h]

lemma failed_transaction_cleanup_good (env : Env) (configs : Configs)
    (e : VMStatus) (gl : Nat) (t : SignedTransaction) (cache : CacheMap) :
    GoodOut (failed_transaction_cleanup env configs e gl t cache) := by
  cases hi : e.intoTransactionStatus with
  | Keep s =>
      cases hf : env.run_failure_epilogue configs t cache with
      | error e2 =>
          simp only [failed_transaction_cleanup, hi, hf]
          exact discard_error_output_good e2
      | ok u =>
          cases hg : get_transaction_output (env.failure_finish configs t cache)
              t.max_gas_amount gl s with
          | ok out =>
              simp only [failed_transaction_cleanup, hi, hf, hg]
              exact keep_good _ s (get_transaction_output_status _ _ _ _ _ hg)
          | error e2 =>
              simp only [failed_transaction_cleanup, hi, hf, hg]
              exact discard_error_output_good e2
  | Discard s =>
      simp only [failed_transaction_cleanup, hi]
      exact discard_error_output_good s
  | Retry =>
      simp only [failed_transaction_cleanup, hi]
      exact discard_error_output_good e

lemma success_transaction_cleanup_ok_status (env : Env) (configs : Configs)
    (t : SignedTransaction) (cache : CacheMap) (gl : Nat)
    (out : TransactionOutput)
    (h : success_transaction_cleanup env configs t cache gl = .ok out) :
    out.status = TransactionStatus.Keep (VMStatus.new .EXECUTED) := by
  cases he : env.run_success_epilogue configs t cache with
  | error e => simp [success_transaction_cleanup, he] at h
  | ok u =>
      simp only [success_transaction_cleanup, he] at h
      exact get_transaction_output_status _ _ _ _ _ h

lemma execute_script_ok_status (env : Env) (configs : Configs)
    (cache : CacheMap) (c : CostStrategy) (t : SignedTransaction) (s : Script)
    (out : TransactionOutput)
    (h : execute_script env configs cache c t s = .ok out) :
    out.status = TransactionStatus.Keep (VMStatus.new .EXECUTED) := by
  rw [execute_script] at h
  cases h1 : env.get_gas_schedule configs with
  | error e => simp [h1] at h
  | ok u1 =>
  cases h2 : env.check_gas configs t with
  | error e => simp [h1, h2] at h
  | ok u2 =>
  cases h3 : env.is_allowed_script configs s with
  | error e => simp [h1, h2, h3] at h
  | ok u3 =>
  cases h4 : env.run_prologue configs t cache with
  | error e => simp [h1, h2, h3, h4] at h
  | ok u4 =>
  cases hch : ((c.disable_metering).enable_metering).charge
      (env.intrinsic_cost configs t.txn_size) with
  | mk r5 cost3 =>
  cases r5 with
  | error e => simp [h1, h2, h3, h4, hch] at h
  | ok u5 =>
  cases h6 : env.body_script configs t s cache cost3.remaining with
  | error er => simp [h1, h2, h3, h4, hch, h6] at h
  | ok rem =>
  cases h7 : success_transaction_cleanup env configs t cache rem with
  | error e => simp [h1, h2, h3, h4, hch, h6, h7] at h
  | ok out2 =>
      simp only [h1, h2, h3, h4, hch, h6, h7, Except.ok.injEq] at h
      rw [← h]
      exact success_transaction_cleanup_ok_status _ _ _ _ _ _ h7

lemma execute_module_ok_status (env : Env) (configs : Configs)
    (cache : CacheMap) (c : CostStrategy) (t : SignedTransaction)
    (m : MoveModule) (out : TransactionOutput)
    (h : execute_module env configs cache c t m = .ok out) :
    out.status = TransactionStatus.Keep (VMStatus.new .EXECUTED) := by
  rw [execute_module] at h
  cases h1 : env.get_gas_schedule configs with
  | error e => simp [h1] at h
  | ok u1 =>
  cases h2 : env.check_gas configs t with
  | error e => simp [h1, h2] at h
  | ok u2 =>
  cases h3 : env.is_allowed_module configs t cache with
  | error e => simp [h1, h2, h3] at h
  | ok u3 =>
  cases h4 : env.run_prologue configs t cache with
  | error e => simp [h1, h2, h3, h4] at h
  | ok u4 =>
  cases h5 : env.publishing_open configs with
  | error e => simp [h1, h2, h3, h4, h5] at h
  | ok is_open =>
  cases hch : ((c.disable_metering).enable_metering).charge
      (env.intrinsic_cost configs t.txn_size) with
  | mk r6 cost3 =>
  cases r6 with
  | error e => simp [h1, h2, h3, h4, h5, hch] at h
  | ok u6 =>
  cases h7 : env.body_module configs t m
      (if is_open then t.sender else CORE_CODE_ADDRESS) cache cost3.remaining with
  | error er => simp [h1, h2, h3, h4, h5, hch, h7] at h
  | ok rem =>
  cases h8 : success_transaction_cleanup env configs t cache rem with
  | error e => simp [h1, h2, h3, h4, h5, hch, h7, h8] at h
  | ok out2 =>
      simp only [h1, h2, h3, h4, h5, hch, h7, h8, Except.ok.injEq] at h
      rw [← h]
      exact success_transaction_cleanup_ok_status _ _ _ _ _ _ h8

lemma user_result_good (env : Env) (configs : Configs) (cache : CacheMap)
    (t : SignedTransaction) (r : Except (VMStatus × Nat) TransactionOutput)
    (hok : ∀ out, r = .ok out →
      out.status = TransactionStatus.Keep (VMStatus.new .EXECUTED)) :
    GoodOut (user_result env configs cache t r) := by
  cases r with
  | ok out => exact keep_good _ _ (hok out rfl)
  | error p =>
      obtain ⟨err, rem⟩ := p
      rw [user_result]
      by_cases hd : err.intoTransactionStatus.is_discarded = true
      · simp only [hd, if_true]
        exact discard_error_output_good err
      · simp only [hd, if_false, Bool.false_eq_true]
        exact failed_transaction_cleanup_good env configs err rem t cache

lemma execute_user_transaction_good (env : Env) (configs : Configs)
    (cache : CacheMap) (txn : SignatureCheckedTransaction) :
    GoodOut (execute_user_transaction env configs cache txn) := by
  rw [execute_user_transaction]
  cases h1 : env.get_gas_schedule configs with
  | error e =>
      simp only [h1]
      exact discard_error_output_good e
  | ok u1 =>
      simp only [h1]
      cases hc : env.currency_recognized txn.txn.gas_currency_code with
      | false =>
          simp only [hc, Bool.false_eq_true, if_false]
          exact discard_error_output_good _
      | true =>
          simp only [hc, if_true]
          cases hp : txn.txn.payload with
          | Script s =>
              simp only [hp]
              exact user_result_good _ _ _ _ _
                (fun out h => execute_script_ok_status _ _ _ _ _ _ out h)
          | Module m =>
              simp only [hp]
              exact user_result_good _ _ _ _ _
                (fun out h => execute_module_ok_status _ _ _ _ _ _ out h)
          | WriteSet cs =>
              simp only [hp]
              exact discard_error_output_good _

lemma user_txn_output_good (env : Env) (configs : Configs) (cache : CacheMap)
    (r : Except VMStatus SignatureCheckedTransaction) :
    GoodOut (user_txn_output env configs cache r) := by
  cases r with
  | ok t => exact execute_user_transaction_good env configs cache t
  | error e => exact discard_error_output_good e

lemma user_loop_good (env : Env) (configs : Configs)
    (l : List (Except VMStatus SignatureCheckedTransaction)) :
    ∀ cache, ∀ o ∈ (user_loop env configs l cache).1, GoodOut o := by
  induction l with
  | nil => intro cache o ho; simp [user_loop] at ho
  | cons x rest ih =>
      intro cache o ho
      simp only [user_loop, List.mem_cons] at ho
      rcases ho with rfl | ho
      · exact user_txn_output_good env configs cache x
      · exact ih _ o ho

lemma process_block_prologue_good (env : Env) (st : ExecState)
    (d : BlockMetadata) (out : TransactionOutput) (st' : ExecState)
    (h : process_block_prologue env st d = .ok (out, st')) :
    GoodOut out := by
  rw [process_block_prologue] at h
  cases hch : (CostStrategy.transaction U64_MAX).charge 0 with
  | mk r cost1 =>
  cases r with
  | error e => simp [hch] at h
  | ok u =>
  cases hwf : d.well_formed with
  | false => simp [hch, hwf] at h
  | true =>
  cases hc : env.block_prologue_call d st.cache with
  | error e => simp [hch, hwf, hc] at h
  | ok u2 =>
  cases hg : get_transaction_output (env.block_prologue_finish d st.cache)
      U64_MAX cost1.remaining (VMStatus.new .EXECUTED) with
  | error e => simp [hch, hwf, hc, hg] at h
  | ok out2 =>
      simp only [hch, hwf, hc, hg, if_true, Except.ok.injEq, Prod.mk.injEq] at h
      rw [← h.1]
      exact keep_good _ _ (get_transaction_output_status _ _ _ _ _ hg)

lemma process_waypoint_good (env : Env) (view : StateView) (st : ExecState)
    (cs : ChangeSet) (out : TransactionOutput) (st' : ExecState)
    (h : process_waypoint_change_set env view st cs = .ok (out, st')) :
    GoodOut out := by
  rw [process_waypoint_change_set] at h
  cases hr : read_writeset view st.cache cs.write_set with
  | error e => simp [hr] at h
  | ok u =>
      simp only [hr, Except.ok.injEq, Prod.mk.injEq] at h
      rw [← h.1]
      exact keep_good _ (VMStatus.new .EXECUTED) rfl

lemma process_writeset_transaction_good (env : Env) (view : StateView)
    (cache : CacheMap) (txn : SignedTransaction) (out : TransactionOutput)
    (h : process_writeset_transaction env view cache txn = .ok out) :
    GoodOut out := by
  rw [process_writeset_transaction] at h
  cases hsig : txn.signature_valid with
  | false =>
      simp only [hsig, Bool.false_eq_true, if_false, Except.ok.injEq] at h
      rw [← h]
      exact discard_error_output_good _
  | true =>
  simp only [hsig, if_true] at h
  cases hp : txn.payload with
  | Script s =>
      simp only [hp, Except.ok.injEq] at h
      rw [← h]
      exact discard_error_output_good _
  | Module m =>
      simp only [hp, Except.ok.injEq] at h
      rw [← h]
      exact discard_error_output_good _
  | WriteSet change_set =>
  simp only [hp] at h
  cases h1 : env.run_writeset_prologue txn cache with
  | error e =>
      simp only [h1, Except.ok.injEq] at h
      rw [← h]
      exact discard_error_output_good _
  | ok u1 =>
  cases h2 : env.bump_sequence_number txn cache with
  | error e => simp [h1, h2] at h
  | ok u2 =>
  cases h3 : env.run_writeset_epilogue txn cache with
  | error e => simp [h1, h2, h3] at h
  | ok u3 =>
  cases h4 : read_writeset view cache change_set.write_set with
  | error e =>
      simp only [h1, h2, h3, h4, Except.ok.injEq] at h
      rw [← h]
      exact discard_error_output_good _
  | ok u4 =>
  cases h5 : env.writeset_finish txn cache with
  | error e => simp [h1, h2, h3, h4, h5] at h
  | ok p =>
  obtain ⟨ews, eev⟩ := p
  simp only [h1, h2, h3, h4, h5] at h
  by_cases hd1 : ap_disjoint ews change_set.write_set = true
  · by_cases hd2 : events_disjoint eev change_set.events = true
    · simp only [hd1, hd2, Bool.not_true, Bool.false_eq_true, if_false,
        Except.ok.injEq] at h
      rw [← h]
      exact keep_good _ (VMStatus.new .EXECUTED) rfl
    · rw [Bool.not_eq_true] at hd2
      simp only [hd1, hd2, Bool.not_true, Bool.not_false, Bool.false_eq_true,
        if_false, if_true, Except.ok.injEq] at h
      rw [← h]
      exact discard_error_output_good _
  · rw [Bool.not_eq_true] at hd1
    simp only [hd1, Bool.not_false, if_true, Except.ok.injEq] at h
    rw [← h]
    exact discard_error_output_good _

lemma run_blocks_good (env : Env) (view : StateView)
    (bs : List TransactionBlock) :
    ∀ st outs stf, run_blocks env view bs st = .ok (outs, stf) →
      ∀ o ∈ outs, GoodOut o := by
  induction bs with
  | nil =>
      intro st outs stf h o ho
      simp only [run_blocks, Except.ok.injEq, Prod.mk.injEq] at h
      rw [← h.1] at ho
      simp at ho
  | cons b rest ih =>
      intro st outs stf h o ho
      cases b with
      | UserTransaction txns =>
          cases hu : execute_user_transactions env txns st with
          | error e => simp [run_blocks, hu] at h
          | ok p =>
              obtain ⟨us, st'⟩ := p
              cases hr : run_blocks env view rest st' with
              | error e => simp [run_blocks, hu, hr] at h
              | ok q =>
                  obtain ⟨more, stf'⟩ := q
                  simp only [run_blocks, hu, hr, Except.ok.injEq, Prod.mk.injEq] at h
                  rw [← h.1] at ho
                  rcases List.mem_append.mp ho with ho | ho
                  · simp only [execute_user_transactions, Except.ok.injEq,
                      Prod.mk.injEq] at hu
                    rw [← hu.1] at ho
                    exact user_loop_good env _ _ _ o ho
                  · exact ih st' more stf' hr o ho
      | BlockPrologue d =>
          cases hu : process_block_prologue env st d with
          | error e => simp [run_blocks, hu] at h
          | ok p =>
              obtain ⟨out, st'⟩ := p
              cases hr : run_blocks env view rest st' with
              | error e => simp [run_blocks, hu, hr] at h
              | ok q =>
                  obtain ⟨more, stf'⟩ := q
                  simp only [run_blocks, hu, hr, Except.ok.injEq, Prod.mk.injEq] at h
                  rw [← h.1] at ho
                  rcases List.mem_cons.mp ho with rfl | ho
                  · exact process_block_prologue_good env st d o st' hu
                  · exact ih st' more stf' hr o ho
      | WaypointWriteSet cs =>
          cases hu : process_waypoint_change_set env view st cs with
          | ok p =>
              obtain ⟨out, st'⟩ := p
              cases hr : run_blocks env view rest st' with
              | error e => simp [run_blocks, hu, hr] at h
              | ok q =>
                  obtain ⟨more, stf'⟩ := q
                  simp only [run_blocks, hu, hr, Except.ok.injEq, Prod.mk.injEq] at h
                  rw [← h.1] at ho
                  rcases List.mem_cons.mp ho with rfl | ho
                  · exact process_waypoint_good env view st cs o st' hu
                  · exact ih st' more stf' hr o ho
          | error e =>
              cases hr : run_blocks env view rest st with
              | error e2 => simp [run_blocks, hu, hr] at h
              | ok q =>
                  obtain ⟨more, stf'⟩ := q
                  simp only [run_blocks, hu, hr, Except.ok.injEq, Prod.mk.injEq] at h
                  rw [← h.1] at ho
                  rcases List.mem_cons.mp ho with rfl | ho
                  · exact discard_error_output_good e
                  · exact ih st more stf' hr o ho
      | WriteSet txn =>
          cases hu : process_writeset_transaction env view st.cache txn with
          | error e => simp [run_blocks, hu] at h
          | ok out =>
              cases hr : run_blocks env view rest st with
              | error e => simp [run_blocks, hu, hr] at h
              | ok q =>
                  obtain ⟨more, stf'⟩ := q
                  simp only [run_blocks, hu, hr, Except.ok.injEq, Prod.mk.injEq] at h
                  rw [← h.1] at ho
                  rcases List.mem_cons.mp ho with rfl | ho
                  · exact process_writeset_transaction_good env view st.cache txn o hu
                  · exact ih st more stf' hr o ho

/-- C3: in every successful batch, every output whose status is `Discard`
carries an empty write set and an empty events list, whatever the
transaction and whatever failure path produced the discard. -/
theorem discarded_outputs_are_empty (env : Env) (ts : List Transaction)
    (view : StateView) (outs : List TransactionOutput)
    (h : execute_block env ts view = .ok outs) :
    ∀ o ∈ outs, o.status.is_discarded = true →
      o.write_set = [] ∧ o.events = [] := by
  intro o ho hd
  rw [execute_block, execute_block_impl] at h
  cases hr : run_blocks env view (chunk_block_transactions ts)
      { cache := [], configs := env.initial_configs } with
  | error e => rw [hr] at h; cases h
  | ok p =>
      obtain ⟨result, stf⟩ := p
      rw [hr] at h
      simp only [Except.ok.injEq] at h
      rw [← h] at ho
      exact (run_blocks_good env view _ _ result stf hr o ho).1 hd

/-- Witness for C3: a batch with an invalid-signature transaction yields a
discard output, which is empty. -/
theorem discarded_outputs_are_empty_witness :
    (discard_error_output (VMStatus.new .INVALID_SIGNATURE)).write_set = [] ∧
    (discard_error_output (VMStatus.new .INVALID_SIGNATURE)).events = [] :=
  discarded_outputs_are_empty env0 [Transaction.UserTransaction badSigTxn0]
    view0 [discard_error_output (VMStatus.new .INVALID_SIGNATURE)] (by rfl)
    _ (by simp) (by rfl)

/-! ## Staging-cache application (claim C8) -/

/-- Fold the per-iteration cache update over a list of outputs: exactly the
non-discarded (`Keep`) outputs push their write sets. -/
def applyKeepOutputs (cache : CacheMap) (outs : List TransactionOutput) : CacheMap :=
  outs.foldl next_cache cache

lemma user_loop_append (env : Env) (configs : Configs)
    (l1 l2 : List (Except VMStatus SignatureCheckedTransaction)) :
    ∀ cache, user_loop env configs (l1 ++ l2) cache =
      ((user_loop env configs l1 cache).1 ++
        (user_loop env configs l2 (user_loop env configs l1 cache).2).1,
       (user_loop env configs l2 (user_loop env configs l1 cache).2).2) := by
  induction l1 with
  | nil => intro cache; simp [user_loop]
  | cons x rest ih => intro cache; simp [user_loop, ih]

lemma user_loop_cache (env : Env) (configs : Configs)
    (l : List (Except VMStatus SignatureCheckedTransaction)) :
    ∀ cache, (user_loop env configs l cache).2 =
      applyKeepOutputs cache (user_loop env configs l cache).1 := by
  induction l with
  | nil => intro cache; simp [user_loop, applyKeepOutputs]
  | cons x rest ih => intro cache; simp [user_loop, applyKeepOutputs, ih]

/-- C8: in the serial loop over a user run, (1) the loop splits over
concatenation, so the cache a later transaction observes is exactly the one
produced by the prefix before it; (2) the final cache is the initial cache
with precisely the non-discarded outputs' write sets applied in order; and
(3) an output is non-discarded exactly when its status is `Keep`, so effects
of transaction `i` are visible to a later transaction via the cache iff `i`
produced a `Keep` output, and `Discard` outputs leave the cache unchanged. -/
theorem staging_cache_applies_only_keep (env : Env) (configs : Configs)
    (cache : CacheMap) :
    (∀ l1 l2 : List (Except VMStatus SignatureCheckedTransaction),
        user_loop env configs (l1 ++ l2) cache =
          ((user_loop env configs l1 cache).1 ++
            (user_loop env configs l2 (user_loop env configs l1 cache).2).1,
           (user_loop env configs l2 (user_loop env configs l1 cache).2).2))
  ∧ (∀ l : List (Except VMStatus SignatureCheckedTransaction),
        (user_loop env configs l cache).2 =
          applyKeepOutputs cache (user_loop env configs l cache).1)
  ∧ (∀ l : List (Except VMStatus SignatureCheckedTransaction),
        ∀ o ∈ (user_loop env configs l cache).1,
          (o.status.is_discarded = false ↔
            ∃ s, o.status = TransactionStatus.Keep s)) := by
  refine ⟨fun l1 l2 => user_loop_append env configs l1 l2 cache,
          fun l => user_loop_cache env configs l cache,
          fun l o ho => ?_⟩
  have hg := user_loop_good env configs l cache o ho
  cases hst : o.status with
  | Keep s => simp [TransactionStatus.is_discarded]
  | Discard s => simp [TransactionStatus.is_discarded]
  | Retry => exact absurd hst hg.2

/-- Witness for C8: a successful script transaction under the trivial oracle
is non-discarded and indeed carries a `Keep` status. -/
theorem staging_cache_applies_only_keep_witness :
    ((execute_user_transaction env0 0 [] ⟨scriptTxn0⟩).status.is_discarded = false ↔
      ∃ s, (execute_user_transaction env0 0 [] ⟨scriptTxn0⟩).status =
        TransactionStatus.Keep s) :=
  (staging_cache_applies_only_keep env0 0 []).2.2 [Except.ok ⟨scriptTxn0⟩] _
    (by simp [user_loop, user_txn_output])

/-! ## Write-set transaction flow (claims C5 and C6) -/

lemma process_writeset_steps (env : Env) (view : StateView) (cache : CacheMap)
    (txn : SignedTransaction) (change_set : ChangeSet)
    (ews : WriteSet) (eev : List ContractEvent)
    (hsig : txn.signature_valid = true)
    (hp : txn.payload = TransactionPayload.WriteSet change_set)
    (h1 : env.run_writeset_prologue txn cache = .ok ())
    (h2 : env.bump_sequence_number txn cache = .ok ())
    (h3 : env.run_writeset_epilogue txn cache = .ok ())
    (h4 : read_writeset view cache change_set.write_set = .ok ())
    (h5 : env.writeset_finish txn cache = .ok (ews, eev)) :
    process_writeset_transaction env view cache txn =
      (if !(ap_disjoint ews change_set.write_set) then
        .ok (discard_error_output (VMStatus.new .INVALID_WRITE_SET))
      else if !(events_disjoint eev change_set.events) then
        .ok (discard_error_output (VMStatus.new .INVALID_WRITE_SET))
      else
        .ok { write_set := ews ++ change_set.write_set,
              events := change_set.events ++ eev,
              gas_used := 0,
              status := TransactionStatus.Keep (VMStatus.new .EXECUTED) }) := by
  rw [process_writeset_transaction]
  simp only [hsig, hp, h1, h2, h3, h4, h5, if_true]

lemma process_writeset_success_inv (env : Env) (view : StateView)
    (cache : CacheMap) (txn : SignedTransaction) (out : TransactionOutput)
    (h : process_writeset_transaction env view cache txn = .ok out)
    (hnd : out.status.is_discarded = false) :
    ∃ cs ews eev, txn.payload = TransactionPayload.WriteSet cs ∧
      txn.signature_valid = true ∧
      env.writeset_finish txn cache = .ok (ews, eev) ∧
      ap_disjoint ews cs.write_set = true ∧
      events_disjoint eev cs.events = true ∧
      out = { write_set := ews ++ cs.write_set, events := cs.events ++ eev,
              gas_used := 0,
              status := TransactionStatus.Keep (VMStatus.new .EXECUTED) } := by
  rw [process_writeset_transaction] at h
  cases hsig : txn.signature_valid with
  | false =>
      simp only [hsig, Bool.false_eq_true, if_false, Except.ok.injEq] at h
      rw [← h] at hnd
      simp [discard_error_output, TransactionStatus.is_discarded] at hnd
  | true =>
  simp only [hsig, if_true] at h
  cases hp : txn.payload with
  | Script s =>
      simp only [hp, Except.ok.injEq] at h
      rw [← h] at hnd
      simp [discard_error_output, TransactionStatus.is_discarded] at hnd
  | Module m =>
      simp only [hp, Except.ok.injEq] at h
      rw [← h] at hnd
      simp [discard_error_output, TransactionStatus.is_discarded] at hnd
  | WriteSet change_set =>
  simp only [hp] at h
  cases h1 : env.run_writeset_prologue txn cache with
  | error e =>
      simp only [h1, Except.ok.injEq] at h
      rw [← h] at hnd
      simp [discard_error_output, TransactionStatus.is_discarded] at hnd
  | ok u1 =>
  cases h2 : env.bump_sequence_number txn cache with
  | error e => simp [h1, h2] at h
  | ok u2 =>
  cases h3 : env.run_writeset_epilogue txn cache with
  | error e => simp [h1, h2, h3] at h
  | ok u3 =>
  cases h4 : read_writeset view cache change_set.write_set with
  | error e =>
      simp only [h1, h2, h3, h4, Except.ok.injEq] at h
      rw [← h] at hnd
      simp [discard_error_output, TransactionStatus.is_discarded] at hnd
  | ok u4 =>
  cases h5 : env.writeset_finish txn cache with
  | error e => simp [h1, h2, h3, h4, h5] at h
  | ok p =>
  obtain ⟨ews, eev⟩ := p
  simp only [h1, h2, h3, h4, h5] at h
  by_cases hd1 : ap_disjoint ews change_set.write_set = true
  · by_cases hd2 : events_disjoint eev change_set.events = true
    · simp only [hd1, hd2, Bool.not_true, Bool.false_eq_true, if_false,
        Except.ok.injEq] at h
      exact ⟨change_set, ews, eev, rfl, rfl, rfl, hd1, hd2, h.symm⟩
    · rw [Bool.not_eq_true] at hd2
      simp only [hd1, hd2, Bool.not_true, Bool.not_false, Bool.false_eq_true,
        if_false, if_true, Except.ok.injEq] at h
      rw [← h] at hnd
      simp [discard_error_output, TransactionStatus.is_discarded] at hnd
  · rw [Bool.not_eq_true] at hd1
    simp only [hd1, Bool.not_false, if_true, Except.ok.injEq] at h
    rw [← h] at hnd
    simp [discard_error_output, TransactionStatus.is_discarded] at hnd

/-- C5: a write-set transaction that succeeds (is not discarded) has its
epilogue write-set access paths disjoint from the embedded write-set paths
and its epilogue event keys disjoint from the embedded event keys; and
whenever the flow reaches the overlap check with either pair overlapping,
the output is a `Discard` with `INVALID_WRITE_SET`. -/
theorem writeset_overlap_check (env : Env) (view : StateView)
    (cache : CacheMap) (txn : SignedTransaction) (cs : ChangeSet)
    (hp : txn.payload = TransactionPayload.WriteSet cs) :
    (∀ out, process_writeset_transaction env view cache txn = .ok out →
        out.status.is_discarded = false →
        ∃ ews eev, env.writeset_finish txn cache = .ok (ews, eev) ∧
          ap_disjoint ews cs.write_set = true ∧
          events_disjoint eev cs.events = true)
  ∧ (∀ ews eev, txn.signature_valid = true →
        env.run_writeset_prologue txn cache = .ok () →
        env.bump_sequence_number txn cache = .ok () →
        env.run_writeset_epilogue txn cache = .ok () →
        read_writeset view cache cs.write_set = .ok () →
        env.writeset_finish txn cache = .ok (ews, eev) →
        (ap_disjoint ews cs.write_set && events_disjoint eev cs.events) = false →
        process_writeset_transaction env view cache txn =
          .ok (discard_error_output (VMStatus.new .INVALID_WRITE_SET))) := by
  constructor
  · intro out h hnd
    obtain ⟨cs', ews, eev, hp', hsig, h5, hd1, hd2, _⟩ :=
      process_writeset_success_inv env view cache txn out h hnd
    rw [hp] at hp'
    cases hp'
    exact ⟨ews, eev, h5, hd1, hd2⟩
  · intro ews eev hsig h1 h2 h3 h4 h5 hov
    rw [process_writeset_steps env view cache txn cs ews eev hsig hp h1 h2 h3 h4 h5]
    rcases Bool.and_eq_false_iff.mp hov with ha | hb
    · simp [ha]
    · by_cases ha : ap_disjoint ews cs.write_set = true
      · simp [ha, hb]
      · rw [Bool.not_eq_true] at ha
        simp [ha]

/-- Witness for C5: under `envOverlap` the epilogue session writes key `0`,
which the embedded change set also writes, so the transaction is discarded
with `INVALID_WRITE_SET`. -/
theorem writeset_overlap_check_witness :
    process_writeset_transaction envOverlap view0 [] wsTxn0 =
      .ok (discard_error_output (VMStatus.new .INVALID_WRITE_SET)) :=
  (writeset_overlap_check envOverlap view0 [] wsTxn0 cs0 rfl).2
    [(0, WriteOp.Value 5)] [] rfl rfl rfl rfl rfl rfl rfl

/-- C6: a write-set transaction that succeeds outputs the epilogue write set
followed by the embedded write set, but the embedded events followed by the
epilogue events (the two orders are asymmetric), with status
`Keep(EXECUTED)` and zero gas. -/
theorem writeset_success_output (env : Env) (view : StateView)
    (cache : CacheMap) (txn : SignedTransaction) (cs : ChangeSet)
    (out : TransactionOutput)
    (hp : txn.payload = TransactionPayload.WriteSet cs)
    (h : process_writeset_transaction env view cache txn = .ok out)
    (hnd : out.status.is_discarded = false) :
    ∃ ews eev, env.writeset_finish txn cache = .ok (ews, eev) ∧
      out.write_set = ews ++ cs.write_set ∧
      out.events = cs.events ++ eev ∧
      out.gas_used = 0 ∧
      out.status = TransactionStatus.Keep (VMStatus.new .EXECUTED) := by
  obtain ⟨cs', ews, eev, hp', hsig, h5, hd1, hd2, hout⟩ :=
    process_writeset_success_inv env view cache txn out h hnd
  rw [hp] at hp'
  cases hp'
  exact ⟨ews, eev, h5, by rw [hout], by rw [hout], by rw [hout], by rw [hout]⟩

/-- Witness for C6: a successful write-set transaction under the trivial
oracle (empty epilogue effects) outputs exactly the embedded write set and
events with status `Keep(EXECUTED)`. -/
theorem writeset_success_output_witness :
    ∃ ews eev, env0.writeset_finish wsTxn0 [] = .ok (ews, eev) ∧
      ({ write_set := [(0, WriteOp.Value 7)], events := [], gas_used := 0,
         status := TransactionStatus.Keep (VMStatus.new .EXECUTED) } :
        TransactionOutput).write_set = ews ++ cs0.write_set ∧
      ({ write_set := [(0, WriteOp.Value 7)], events := [], gas_used := 0,
         status := TransactionStatus.Keep (VMStatus.new .EXECUTED) } :
        TransactionOutput).events = cs0.events ++ eev ∧
      ({ write_set := [(0, WriteOp.Value 7)], events := [], gas_used := 0,
         status := TransactionStatus.Keep (VMStatus.new .EXECUTED) } :
        TransactionOutput).gas_used = 0 ∧
      ({ write_set := [(0, WriteOp.Value 7)], events := [], gas_used := 0,
         status := TransactionStatus.Keep (VMStatus.new .EXECUTED) } :
        TransactionOutput).status = TransactionStatus.Keep (VMStatus.new .EXECUTED) :=
  writeset_success_output env0 view0 [] wsTxn0 cs0 _ rfl (by rfl) (by rfl)

/-! ## Batch abort policy (claim C2) -/

/-- C2 counterexample: a batch holding one write-set transaction whose
writeset epilogue fails with `ABORTED` — an error arising while processing
that single transaction, neither a block-prologue failure nor storage
unavailability during configuration reload — makes `execute_block` abort the
whole batch with a `VMStatus` instead of yielding a `Keep` or `Discard`
output for that transaction. -/
theorem batch_abort_counterexample :
    execute_block envWsEpilogueFail [Transaction.UserTransaction wsTxn0] view0 =
      .error (VMStatus.new .ABORTED) := by
  rfl

/-- C2 (amended): errors on the user-transaction path always yield per-
transaction `Keep`/`Discard` outputs (`execute_user_transactions` never
fails); a waypoint failure produces a `Discard` output for the waypoint and
the batch continues; and beyond block-prologue failures, the batch aborts
exactly when a write-set transaction's sequence-number bump, writeset
epilogue, or session finalization fails. -/
theorem batch_abort_policy (env : Env) (view : StateView) :
    (∀ txns st, ∃ r, execute_user_transactions env txns st = .ok r)
  ∧ (∀ cs rest st e, process_waypoint_change_set env view st cs = .error e →
      run_blocks env view (TransactionBlock.WaypointWriteSet cs :: rest) st =
        (run_blocks env view rest st).map
          (fun p => (discard_error_output e :: p.1, p.2)))
  ∧ (∀ cache txn e, process_writeset_transaction env view cache txn = .error e →
      env.bump_sequence_number txn cache = .error e ∨
      env.run_writeset_epilogue txn cache = .error e ∨
      env.writeset_finish txn cache = .error e) := by
  refine ⟨fun txns st => ⟨_, rfl⟩, ?_, ?_⟩
  · intro cs rest st e hw
    cases hr : run_blocks env view rest st with
    | error e2 => simp [run_blocks, hw, hr, Except.map]
    | ok q => simp [run_blocks, hw, hr, Except.map]
  · intro cache txn e h
    rw [process_writeset_transaction] at h
    cases hsig : txn.signature_valid with
    | false => simp [hsig] at h
    | true =>
    simp only [hsig, if_true] at h
    cases hp : txn.payload with
    | Script s => simp [hp] at h
    | Module m => simp [hp] at h
    | WriteSet change_set =>
    simp only [hp] at h
    cases h1 : env.run_writeset_prologue txn cache with
    | error e2 => simp [h1] at h
    | ok u1 =>
    cases h2 : env.bump_sequence_number txn cache with
    | error e2 =>
        simp only [h1, h2, Except.error.injEq] at h
        exact Or.inl (by rw [h])
    | ok u2 =>
    cases h3 : env.run_writeset_epilogue txn cache with
    | error e2 =>
        simp only [h1, h2, h3, Except.error.injEq] at h
        exact Or.inr (Or.inl (by rw [h]))
    | ok u3 =>
    cases h4 : read_writeset view cache change_set.write_set with
    | error e2 => simp [h1, h2, h3, h4] at h
    | ok u4 =>
    cases h5 : env.writeset_finish txn cache with
    | error e2 =>
        simp only [h1, h2, h3, h4, h5, Except.error.injEq] at h
        exact Or.inr (Or.inr (by rw [h]))
    | ok p =>
    obtain ⟨ews, eev⟩ := p
    simp only [h1, h2, h3, h4, h5] at h
    by_cases hd1 : ap_disjoint ews change_set.write_set = true
    · by_cases hd2 : events_disjoint eev change_set.events = true
      · simp [hd1, hd2] at h
      · rw [Bool.not_eq_true] at hd2
        simp [hd1, hd2] at h
    · rw [Bool.not_eq_true] at hd1
      simp [hd1] at h

/-- Witness for the amended C2: under `envWsEpilogueFail` the batch abort of
the counterexample is attributed to the writeset-epilogue step. -/
theorem batch_abort_policy_witness :
    envWsEpilogueFail.bump_sequence_number wsTxn0 [] =
      .error (VMStatus.new .ABORTED) ∨
    envWsEpilogueFail.run_writeset_epilogue wsTxn0 [] =
      .error (VMStatus.new .ABORTED) ∨
    envWsEpilogueFail.writeset_finish wsTxn0 [] =
      .error (VMStatus.new .ABORTED) :=
  (batch_abort_policy envWsEpilogueFail view0).2.2 [] wsTxn0
    (VMStatus.new .ABORTED) (by rfl)

/-! ## User-transaction failure paths (claim C7) -/

lemma intoTransactionStatus_cases (e : VMStatus) :
    e.intoTransactionStatus = TransactionStatus.Keep e ∨
    e.intoTransactionStatus = TransactionStatus.Discard e := by
  obtain ⟨c⟩ := e
  cases c <;> simp [VMStatus.intoTransactionStatus]

lemma into_not_discarded_keep (e : VMStatus)
    (h : e.intoTransactionStatus.is_discarded = false) :
    e.intoTransactionStatus = TransactionStatus.Keep e := by
  rcases intoTransactionStatus_cases e with h2 | h2
  · exact h2
  · rw [h2] at h
    simp [TransactionStatus.is_discarded] at h

/-- A concrete module-payload user transaction with a valid signature. -/
def moduleTxn0 : SignedTransaction :=
  { sender := 5, sequence_number := 0, payload := .Module ⟨0⟩,
    max_gas_amount := 100, gas_currency_code := 0, txn_size := 10,
    signature_valid := true }

/-- Oracle in which the script body runs out of gas, draining the meter. -/
def envBodyFail : Env :=
  { env0 with body_script := fun _ _ _ _ _ => .error (VMStatus.new .OUT_OF_GAS, 0) }

/-- C7: for every user transaction of the ordinary path — script or module
payload, with the gas schedule available, the currency recognized and the
validation checks passing: a prologue failure whose status converts to
`Discard` discards the transaction (empty output); a body failure with a
keepable status runs the failure epilogue in a fresh session over the
pre-body cache, and its effects together with the gas consumed form the
`Keep` output; and if the failure epilogue itself fails, the transaction is
discarded. -/
theorem user_transaction_failure_paths (env : Env) (configs : Configs)
    (cache : CacheMap) (t : SignedTransaction)
    (hgs : env.get_gas_schedule configs = .ok ())
    (hcur : env.currency_recognized t.gas_currency_code = true)
    (hcg : env.check_gas configs t = .ok ()) :
    (∀ s e, t.payload = TransactionPayload.Script s →
        env.is_allowed_script configs s = .ok () →
        env.run_prologue configs t cache = .error e →
        e.intoTransactionStatus.is_discarded = true →
        execute_user_transaction env configs cache ⟨t⟩ = discard_error_output e)
  ∧ (∀ s e rem fws fev, t.payload = TransactionPayload.Script s →
        env.is_allowed_script configs s = .ok () →
        env.run_prologue configs t cache = .ok () →
        env.intrinsic_cost configs t.txn_size ≤ t.max_gas_amount →
        env.body_script configs t s cache
            (t.max_gas_amount - env.intrinsic_cost configs t.txn_size) =
          .error (e, rem) →
        e.intoTransactionStatus.is_discarded = false →
        env.run_failure_epilogue configs t cache = .ok () →
        env.failure_finish configs t cache = .ok (fws, fev) →
        execute_user_transaction env configs cache ⟨t⟩ =
          { write_set := fws, events := fev,
            gas_used := t.max_gas_amount - rem,
            status := TransactionStatus.Keep e })
  ∧ (∀ s e rem e2, t.payload = TransactionPayload.Script s →
        env.is_allowed_script configs s = .ok () →
        env.run_prologue configs t cache = .ok () →
        env.intrinsic_cost configs t.txn_size ≤ t.max_gas_amount →
        env.body_script configs t s cache
            (t.max_gas_amount - env.intrinsic_cost configs t.txn_size) =
          .error (e, rem) →
        e.intoTransactionStatus.is_discarded = false →
        env.run_failure_epilogue configs t cache = .error e2 →
        execute_user_transaction env configs cache ⟨t⟩ =
          discard_error_output e2)
  ∧ (∀ m e, t.payload = TransactionPayload.Module m →
        env.is_allowed_module configs t cache = .ok () →
        env.run_prologue configs t cache = .error e →
        e.intoTransactionStatus.is_discarded = true →
        execute_user_transaction env configs cache ⟨t⟩ = discard_error_output e)
  ∧ (∀ m is_open e rem fws fev, t.payload = TransactionPayload.Module m →
        env.is_allowed_module configs t cache = .ok () →
        env.run_prologue configs t cache = .ok () →
        env.publishing_open configs = .ok is_open →
        env.intrinsic_cost configs t.txn_size ≤ t.max_gas_amount →
        env.body_module configs t m
            (if is_open then t.sender else CORE_CODE_ADDRESS) cache
            (t.max_gas_amount - env.intrinsic_cost configs t.txn_size) =
          .error (e, rem) →
        e.intoTransactionStatus.is_discarded = false →
        env.run_failure_epilogue configs t cache = .ok () →
        env.failure_finish configs t cache = .ok (fws, fev) →
        execute_user_transaction env configs cache ⟨t⟩ =
          { write_set := fws, events := fev,
            gas_used := t.max_gas_amount - rem,
            status := TransactionStatus.Keep e })
  ∧ (∀ m is_open e rem e2, t.payload = TransactionPayload.Module m →
        env.is_allowed_module configs t cache = .ok () →
        env.run_prologue configs t cache = .ok () →
        env.publishing_open configs = .ok is_open →
        env.intrinsic_cost configs t.txn_size ≤ t.max_gas_amount →
        env.body_module configs t m
            (if is_open then t.sender else CORE_CODE_ADDRESS) cache
            (t.max_gas_amount - env.intrinsic_cost configs t.txn_size) =
          .error (e, rem) →
        e.intoTransactionStatus.is_discarded = false →
        env.run_failure_epilogue configs t cache = .error e2 →
        execute_user_transaction env configs cache ⟨t⟩ =
          discard_error_output e2) := by
  refine ⟨?_, ?_, ?_, ?_, ?_, ?_⟩
  · intro s e hp hallow hpro hd
    rw [execute_user_transaction]
    simp only [hgs, hcur, hp, if_true]
    rw [execute_script]
    simp only [hgs, hcg, hallow, hpro]
    rw [user_result]
    simp only [hd, if_true]
  · intro s e rem fws fev hp hallow hpro hch hbody hkeep hfe hff
    rw [execute_user_transaction]
    simp only [hgs, hcur, hp, if_true]
    rw [execute_script]
    simp only [hgs, hcg, hallow, hpro, CostStrategy.charge, CostStrategy.system,
      CostStrategy.disable_metering, CostStrategy.enable_metering, if_true,
      hch, hbody]
    rw [user_result]
    simp only [hkeep, Bool.false_eq_true, if_false]
    rw [failed_transaction_cleanup, into_not_discarded_keep e hkeep]
    simp only [hfe, hff, get_transaction_output]
  · intro s e rem e2 hp hallow hpro hch hbody hkeep hfe
    rw [execute_user_transaction]
    simp only [hgs, hcur, hp, if_true]
    rw [execute_script]
    simp only [hgs, hcg, hallow, hpro, CostStrategy.charge, CostStrategy.system,
      CostStrategy.disable_metering, CostStrategy.enable_metering, if_true,
      hch, hbody]
    rw [user_result]
    simp only [hkeep, Bool.false_eq_true, if_false]
    rw [failed_transaction_cleanup, into_not_discarded_keep e hkeep]
    simp only [hfe]
  · intro m e hp hallow hpro hd
    rw [execute_user_transaction]
    simp only [hgs, hcur, hp, if_true]
    rw [execute_module]
    simp only [hgs, hcg, hallow, hpro]
    rw [user_result]
    simp only [hd, if_true]
  · intro m is_open e rem fws fev hp hallow hpro hopen hch hbody hkeep hfe hff
    rw [execute_user_transaction]
    simp only [hgs, hcur, hp, if_true]
    rw [execute_module]
    simp only [hgs, hcg, hallow, hpro, hopen, CostStrategy.charge,
      CostStrategy.system, CostStrategy.disable_metering,
      CostStrategy.enable_metering, if_true, hch, hbody]
    rw [user_result]
    simp only [hkeep, Bool.false_eq_true, if_false]
    rw [failed_transaction_cleanup, into_not_discarded_keep e hkeep]
    simp only [hfe, hff, get_transaction_output]
  · intro m is_open e rem e2 hp hallow hpro hopen hch hbody hkeep hfe
    rw [execute_user_transaction]
    simp only [hgs, hcur, hp, if_true]
    rw [execute_module]
    simp only [hgs, hcg, hallow, hpro, hopen, CostStrategy.charge,
      CostStrategy.system, CostStrategy.disable_metering,
      CostStrategy.enable_metering, if_true, hch, hbody]
    rw [user_result]
    simp only [hkeep, Bool.false_eq_true, if_false]
    rw [failed_transaction_cleanup, into_not_discarded_keep e hkeep]
    simp only [hfe]

/-- Witness for C7: under `envPrologueFail` the prologue fails with an old
sequence number and both a script and a module transaction are discarded;
under `envBodyFail` a script body that runs out of gas yields a `Keep`
output built from the failure epilogue's (empty) effects with the whole
budget charged. -/
theorem user_transaction_failure_paths_witness :
    execute_user_transaction envPrologueFail 0 [] ⟨scriptTxn0⟩ =
      discard_error_output (VMStatus.new .SEQUENCE_NUMBER_TOO_OLD) ∧
    execute_user_transaction envPrologueFail 0 [] ⟨moduleTxn0⟩ =
      discard_error_output (VMStatus.new .SEQUENCE_NUMBER_TOO_OLD) ∧
    execute_user_transaction envBodyFail 0 [] ⟨scriptTxn0⟩ =
      { write_set := [], events := [], gas_used := 100,
        status := TransactionStatus.Keep (VMStatus.new .OUT_OF_GAS) } :=
  ⟨(user_transaction_failure_paths envPrologueFail 0 [] scriptTxn0
      rfl rfl rfl).1 ⟨0⟩ (VMStatus.new .SEQUENCE_NUMBER_TOO_OLD) rfl rfl rfl rfl,
   (user_transaction_failure_paths envPrologueFail 0 [] moduleTxn0
      rfl rfl rfl).2.2.2.1 ⟨0⟩ (VMStatus.new .SEQUENCE_NUMBER_TOO_OLD)
      rfl rfl rfl rfl,
   (user_transaction_failure_paths envBodyFail 0 [] scriptTxn0
      rfl rfl rfl).2.1 ⟨0⟩ (VMStatus.new .OUT_OF_GAS) 0 [] []
      rfl rfl rfl (by decide) rfl rfl rfl rfl⟩

/-! ## Waypoint processing (claim C9) -/

lemma read_writeset_ok_iff (view : StateView) (cache : CacheMap)
    (ws : WriteSet) :
    read_writeset view cache ws = .ok () ↔
      ∀ p ∈ ws, ∃ v, cache_get view cache p.1 = .ok v := by
  induction ws with
  | nil => simp [read_writeset]
  | cons p rest ih =>
      cases hg : cache_get view cache p.1 with
      | error u =>
          simp only [read_writeset, hg]
          constructor
          · intro h; simp at h
          · intro hall
            rcases hall p (List.mem_cons_self p rest) with ⟨v, hv⟩
            rw [hg] at hv
            simp at hv
      | ok v =>
          simp only [read_writeset, hg, List.mem_cons]
          rw [ih]
          constructor
          · intro hall q hq
            rcases hq with rfl | hq
            · exact ⟨v, hg⟩
            · exact hall q hq
          · intro hall q hq
            exact hall q (Or.inr hq)

/-- C9: processing a waypoint change set first reads every access path the
change set will write (success implies every such read succeeded on the
incoming cache, and conversely all reads succeeding implies success), then
applies the write set unconditionally to the staging cache, reloads the
on-chain configs from the updated cache, and outputs `Keep(EXECUTED)` with
exactly the change set's write set and events and zero gas. -/
theorem waypoint_processing (env : Env) (view : StateView) (st : ExecState)
    (cs : ChangeSet) :
    (∀ out st', process_waypoint_change_set env view st cs = .ok (out, st') →
        out.write_set = cs.write_set ∧ out.events = cs.events ∧
        out.gas_used = 0 ∧
        out.status = TransactionStatus.Keep (VMStatus.new .EXECUTED) ∧
        st'.cache = push_write_set st.cache cs.write_set ∧
        st'.configs = env.load_configs (push_write_set st.cache cs.write_set) ∧
        (∀ p ∈ cs.write_set, ∃ v, cache_get view st.cache p.1 = .ok v))
  ∧ ((∀ p ∈ cs.write_set, ∃ v, cache_get view st.cache p.1 = .ok v) →
      process_waypoint_change_set env view st cs =
        .ok ({ write_set := cs.write_set, events := cs.events, gas_used := 0,
               status := TransactionStatus.Keep (VMStatus.new .EXECUTED) },
             { cache := push_write_set st.cache cs.write_set,
               configs := env.load_configs
                 (push_write_set st.cache cs.write_set) })) := by
  constructor
  · intro out st' h
    cases hr : read_writeset view st.cache cs.write_set with
    | error e => simp [process_waypoint_change_set, hr] at h
    | ok u =>
        obtain ⟨⟩ := u
        simp only [process_waypoint_change_set, hr, Except.ok.injEq,
          Prod.mk.injEq] at h
        obtain ⟨h1, h2⟩ := h
        refine ⟨by rw [← h1], by rw [← h1], by rw [← h1], by rw [← h1]; rfl,
                by rw [← h2], by rw [← h2],
                (read_writeset_ok_iff view st.cache cs.write_set).mp hr⟩
  · intro hall
    have hr := (read_writeset_ok_iff view st.cache cs.write_set).mpr hall
    rw [process_waypoint_change_set]
    simp only [hr]
    rfl

/-- Witness for C9: under the trivial oracle every read succeeds (the view
answers absence), so the waypoint change set `cs0` is applied and the cache
afterwards holds its write. -/
theorem waypoint_processing_witness :
    process_waypoint_change_set env0 view0 { cache := [], configs := 0 } cs0 =
      .ok ({ write_set := cs0.write_set, events := cs0.events, gas_used := 0,
             status := TransactionStatus.Keep (VMStatus.new .EXECUTED) },
           { cache := push_write_set [] cs0.write_set,
             configs := env0.load_configs (push_write_set [] cs0.write_set) }) :=
  (waypoint_processing env0 view0 { cache := [], configs := 0 } cs0).2
    (fun _ _ => ⟨none, rfl⟩)

/-! ## Write-set payload on the user path (claim C10) -/

/-- C10: a signature-checked user transaction carrying a `WriteSet` payload
that reaches the ordinary user-transaction path (with the gas schedule
available and the currency recognized) is not executed: its output is a
`Discard` with status code `UNREACHABLE`, and in the serial loop it leaves
the staging cache unchanged for the following transactions. -/
theorem writeset_payload_on_user_path (env : Env) (configs : Configs)
    (cache : CacheMap) (t : SignedTransaction) (cs : ChangeSet)
    (hp : t.payload = TransactionPayload.WriteSet cs)
    (hgs : env.get_gas_schedule configs = .ok ())
    (hcur : env.currency_recognized t.gas_currency_code = true) :
    execute_user_transaction env configs cache ⟨t⟩ =
      discard_error_output (VMStatus.new .UNREACHABLE)
  ∧ ∀ rest, user_loop env configs (Except.ok ⟨t⟩ :: rest) cache =
      (discard_error_output (VMStatus.new .UNREACHABLE) ::
        (user_loop env configs rest cache).1,
       (user_loop env configs rest cache).2) := by
  have hmain : execute_user_transaction env configs cache ⟨t⟩ =
      discard_error_output (VMStatus.new .UNREACHABLE) := by
    rw [execute_user_transaction]
    simp only [hgs, hcur, hp, if_true]
  refine ⟨hmain, fun rest => ?_⟩
  rw [user_loop]
  have hout : user_txn_output env configs cache (Except.ok ⟨t⟩) =
      discard_error_output (VMStatus.new .UNREACHABLE) := by
    rw [user_txn_output]
    exact hmain
  rw [hout]
  have hnc : next_cache cache (discard_error_output (VMStatus.new .UNREACHABLE)) =
      cache := by
    rw [next_cache]
    simp [discard_error_output, TransactionStatus.is_discarded]
  rw [hnc]

/-- Witness for C10: under the trivial oracle the write-set-payload
transaction `wsTxn0` is discarded with `UNREACHABLE` on the user path. -/
theorem writeset_payload_on_user_path_witness :
    execute_user_transaction env0 0 [] ⟨wsTxn0⟩ =
      discard_error_output (VMStatus.new .UNREACHABLE) :=
  (writeset_payload_on_user_path env0 0 [] wsTxn0 cs0 rfl rfl rfl).1
